import Mathlib

/-!
Shallow embedding of srtm-downloader (src/downloader.py) and verification of
the specification claims about it.

Paths are modelled as lists of components relative to the filesystem root;
the file system is an association list from paths to abstract file contents.
The only file content the program ever inspects is the member list of a
downloaded archive, so a content is modelled as a list of member names.
External gdal tools are modelled by the files they create; network traffic is
modelled by response oracles.
-/

namespace Srtm

/-! ### Python string helpers (str.split, str.replace, "in", str.endswith) -/

/-- Whether the first list is a leading segment of the second. -/
def leadSeg : List Char → List Char → Bool
  | [], _ => true
  | _ :: _, [] => false
  | a :: as, b :: bs => a == b && leadSeg as bs

/-- Python substring test: needle occurs somewhere in the haystack. -/
def hasSubChars (needle : List Char) : List Char → Bool
  | [] => leadSeg needle []
  | b :: bs => leadSeg needle (b :: bs) || hasSubChars needle bs

/-- Python `needle in hay` on strings. -/
def strContains (hay needle : String) : Bool :=
  hasSubChars needle.toList hay.toList

/-- If the needle is a leading segment, return the remainder after it. -/
def dropSubAt : List Char → List Char → Option (List Char)
  | [], rest => some rest
  | _ :: _, [] => none
  | a :: as, b :: bs => if a == b then dropSubAt as bs else none

/-- Fueled worker for left-to-right non-overlapping occurrence removal. -/
def removeAllAux (c : Char) (cs : List Char) : Nat → List Char → List Char
  | 0, l => l
  | _ + 1, [] => []
  | fuel + 1, b :: bs =>
    match dropSubAt (c :: cs) (b :: bs) with
    | some rest => removeAllAux c cs fuel rest
    | none => b :: removeAllAux c cs fuel bs

/-- Python `s.replace(needle, "")`: delete every occurrence of a nonempty
needle, scanning left to right. -/
def pyReplaceDel (s needle : String) : String :=
  match needle.toList with
  | [] => s
  | c :: cs => String.mk (removeAllAux c cs s.toList.length s.toList)

/-- Python `s.split(".")[0]`: the portion of the string before the first dot. -/
def beforeFirstDot (s : String) : String :=
  String.mk (s.toList.takeWhile (fun c => c != '.'))

/-- Python `s.lower()`. -/
def strToLower (s : String) : String :=
  String.mk (s.toList.map Char.toLower)

/-- Python `s.endswith(post)`. -/
def strEndsWith (s post : String) : Bool :=
  leadSeg post.toList.reverse s.toList.reverse

/-! ### pathlib helpers (Path.name, Path.stem, Path.suffix, Path `/`) -/

/-- Python `s.split(sep)` on a single separator character. -/
def splitOnChar (sep : Char) : List Char → List (List Char)
  | [] => [[]]
  | c :: cs =>
    if c == sep then [] :: splitOnChar sep cs
    else
      match splitOnChar sep cs with
      | [] => [[c]]
      | r :: rs => (c :: r) :: rs

/-- Nonempty slash-separated components of a string, as pathlib normalises
them. -/
def slashComps (s : String) : List String :=
  ((splitOnChar '/' s.toList).map String.mk).filter (fun t => t ≠ "")

/-- pathlib `PurePath(s).name`: the last slash-separated component. -/
def pathlibName (s : String) : String :=
  (slashComps s).getLastD ""

/-- pathlib stem/suffix split of a file name: the suffix starts at the last
dot provided that dot is neither the first nor the last character. -/
def pyStemSuffix (name : String) : String × String :=
  let cs := name.toList
  match cs.reverse.findIdx? (fun c => c == '.') with
  | none => (name, "")
  | some k =>
    let i := cs.length - 1 - k
    if 0 < i ∧ i < cs.length - 1 then (String.mk (cs.take i), String.mk (cs.drop i))
    else (name, "")

/-- pathlib `PurePath(name).stem` of a file name. -/
def pyStem (name : String) : String := (pyStemSuffix name).1

/-- pathlib `PurePath(name).suffix` of a file name. -/
def pySuffix (name : String) : String := (pyStemSuffix name).2

/-! ### File-system model -/

/-- A path, as its list of components relative to the filesystem root. -/
abbrev Path := List String

/-- The filesystem: existing files, each with its abstract content (the list
of archive member names, empty for non-archive files). -/
abbrev FS := List (Path × List String)

/-- pathlib `parent / member` where the member string may contain slashes. -/
def joinName (p : Path) (s : String) : Path := p ++ slashComps s

/-- Create or overwrite a file. -/
def fsWrite (fs : FS) (p : Path) (c : List String) : FS :=
  (p, c) :: fs.filter (fun e => decide (e.1 ≠ p))

/-- Delete a file (pathlib unlink). -/
def fsUnlink (fs : FS) (p : Path) : FS :=
  fs.filter (fun e => decide (e.1 ≠ p))

/-- Whether a file exists. -/
def fsExists (fs : FS) (p : Path) : Bool :=
  fs.any (fun e => decide (e.1 = p))

/-- Content of a file, empty if absent. -/
def fsRead (fs : FS) (p : Path) : List String :=
  ((fs.find? (fun e => decide (e.1 = p))).map (fun e => e.2)).getD []

/-- Names of the files whose parent is the given directory (iterdir on a
directory containing only files). -/
def dirFiles (fs : FS) (d : Path) : List String :=
  (fs.filter (fun e => decide (e.1.dropLast = d))).map (fun e => e.1.getLastD "")

lemma mem_fsWrite {fs : FS} {p q : Path} {c d : List String} :
    (q, d) ∈ fsWrite fs p c ↔ (q = p ∧ d = c) ∨ ((q, d) ∈ fs ∧ q ≠ p) := by
  simp only [fsWrite, List.mem_cons, List.mem_filter, Prod.mk.injEq,
    decide_eq_true_eq]

lemma mem_fsUnlink {fs : FS} {p q : Path} {d : List String} :
    (q, d) ∈ fsUnlink fs p ↔ (q, d) ∈ fs ∧ q ≠ p := by
  simp [fsUnlink, List.mem_filter]

lemma fsExists_iff {fs : FS} {p : Path} :
    fsExists fs p = true ↔ ∃ c, (p, c) ∈ fs := by
  simp only [fsExists, List.any_eq_true, decide_eq_true_eq]
  constructor
  · rintro ⟨⟨q, c⟩, hq, rfl⟩; exact ⟨c, hq⟩
  · rintro ⟨c, hc⟩; exact ⟨(p, c), hc, rfl⟩

lemma fsExists_fsWrite_self {fs : FS} {p : Path} {c : List String} :
    fsExists (fsWrite fs p c) p = true := by
  rw [fsExists_iff]; exact ⟨c, mem_fsWrite.mpr (Or.inl ⟨rfl, rfl⟩)⟩

lemma fsExists_fsWrite_ne {fs : FS} {p q : Path} {c : List String} (h : q ≠ p) :
    fsExists (fsWrite fs p c) q = fsExists fs q := by
  cases hq : fsExists fs q with
  | true =>
    rw [fsExists_iff] at hq ⊢
    obtain ⟨d, hd⟩ := hq
    exact ⟨d, mem_fsWrite.mpr (Or.inr ⟨hd, h⟩)⟩
  | false =>
    by_contra hne
    have : fsExists (fsWrite fs p c) q = true := by
      cases hx : fsExists (fsWrite fs p c) q
      · exact absurd hx hne
      · rfl
    rw [fsExists_iff] at this
    obtain ⟨d, hd⟩ := this
    rcases mem_fsWrite.mp hd with ⟨h1, _⟩ | ⟨h1, _⟩
    · exact h h1
    · have : fsExists fs q = true := fsExists_iff.mpr ⟨d, h1⟩
      rw [hq] at this; cases this

lemma fsExists_fsUnlink_self {fs : FS} {p : Path} :
    fsExists (fsUnlink fs p) p = false := by
  cases hx : fsExists (fsUnlink fs p) p with
  | false => rfl
  | true =>
    rw [fsExists_iff] at hx
    obtain ⟨d, hd⟩ := hx
    exact absurd rfl (mem_fsUnlink.mp hd).2

lemma fsExists_fsUnlink_of_false {fs : FS} {p q : Path}
    (h : fsExists fs q = false) : fsExists (fsUnlink fs p) q = false := by
  cases hx : fsExists (fsUnlink fs p) q with
  | false => rfl
  | true =>
    rw [fsExists_iff] at hx
    obtain ⟨d, hd⟩ := hx
    have : fsExists fs q = true := fsExists_iff.mpr ⟨d, (mem_fsUnlink.mp hd).1⟩
    rw [h] at this; cases this

lemma fsRead_fsWrite_self {fs : FS} {p : Path} {c : List String} :
    fsRead (fsWrite fs p c) p = c := by
  simp [fsRead, fsWrite, List.find?_cons]

/-! ### HTTP model (requests) -/

/-- An HTTP response: redirect history, final URL after redirects, status
code, textual body, and the abstract content of the body (the member list
when the body is an archive). -/
structure HttpResponse where
  history : List String
  url : String
  status_code : Nat
  text : String
  content : List String
deriving DecidableEq

/-- The network, as oracles for the unauthenticated probe request and for the
authenticated streamed request. -/
structure Net where
  get : String → HttpResponse
  getAuth : String → HttpResponse

/-- Exception raised by the fetcher (downloader.py line 124), carrying the
status code and the body text it interpolates into its message. -/
structure DownloadException where
  status_code : Nat
  text : String
deriving DecidableEq

/-! ### download_file (downloader.py lines 111-128) -/

/-- Lines 112-118: the URL the authenticated request targets - the final
redirected URL when the probe response has a non-empty history, the original
URL otherwise. -/
def final_url (net : Net) (url : String) : String :=
  let response := net.get url
  if response.history.isEmpty then url else response.url

/-- Lines 120-128: handling of the authenticated streamed response - raise on
a non-200 status, otherwise stream the body into the target file. -/
def auth_fetch (r : HttpResponse) (target_path : Path) (fs : FS) :
    Except DownloadException FS :=
  if r.status_code ≠ 200 then Except.error ⟨r.status_code, r.text⟩
  else Except.ok (fsWrite fs target_path r.content)

/-- Lines 111-128: probe, then authenticated streamed request at the final
URL. -/
def download_file (net : Net) (url : String) (target_path : Path) (fs : FS) :
    Except DownloadException FS :=
  auth_fetch (net.getAuth (final_url net url)) target_path fs

/-! ### gdal tool invocations, modelled by the files they create.
The source never inspects the subprocess exit status, so the models always
produce their output file. -/

/-- Lines 37-42: gdal_translate writes the plain GeoTIFF output. -/
def hgt_to_geotif (_hgt : Path) (geotif : Path) (fs : FS) : FS :=
  fsWrite fs geotif []

/-- Lines 45-64: gdalwarp writes the output renamed with the _wgs84ellps stem
tag, keeping the original extension. -/
def hgt_tif_to_geotif_ellipsoidal (_input : Path) (output : Path) (fs : FS) : FS :=
  let nm := output.getLastD ""
  fsWrite fs (output.dropLast ++ [pyStem nm ++ "_wgs84ellps" ++ pySuffix nm]) []

/-- Lines 67-108: trim the overlap into a .tif, warp it into a
_wgs84ellps.tif COG, then (line 108) unlink that warped output. -/
def convert_copernicus (_input : Path) (output : Path) (fs : FS) : FS :=
  let nm := output.getLastD ""
  let output_tif := output.dropLast ++ [pyStem nm ++ ".tif"]
  let fs1 := fsWrite fs output_tif []
  let warped := output.dropLast ++ [pyStem nm ++ "_wgs84ellps.tif"]
  let fs2 := fsWrite fs1 warped []
  fsUnlink fs2 warped

/-! ### process_file (downloader.py lines 131-195) -/

/-- The data-source kind selected by the --data_type argument. -/
inductive DataType
  | srtm
  | aster
  | copernicus
deriving DecidableEq

/-- Line 161: the SRTM payload is unconditionally the first zip entry. -/
def srtm_payload (entries : List String) : Option String := entries.head?

/-- Lines 165-167: the ASTER candidate payloads are the zip entries whose
name contains the substring _dem. -/
def aster_dem_files (entries : List String) : List String :=
  entries.filter (fun f => strContains f "_dem")

/-- Lines 176-178: the Copernicus candidate payloads are the tar entries
whose pathlib suffix is .dt2. -/
def copernicus_dt2_files (entries : List String) : List String :=
  entries.filter (fun f => decide (pySuffix (pathlibName f) = ".dt2"))

/-- The payload selected from the archive member list, per data-source kind
(lines 159-184); none models the logged-and-abandoned job (lines 168-170,
179-181) and the uncaught IndexError of an empty SRTM zip (line 161). -/
def payload_selection (dt : DataType) (entries : List String) : Option String :=
  match dt with
  | .srtm => srtm_payload entries
  | .aster => (aster_dem_files entries).head?
  | .copernicus => (copernicus_dt2_files entries).head?

/-- Lines 156-184: extraction stage. Returns the unpacked payload path and
the filesystem after extraction, or none when no payload was found. SRTM
extracts every entry next to the archive; ASTER extracts every entry into the
geotiff folder; Copernicus extracts only the selected entry next to the
archive. -/
def unpack_stage (dt : DataType) (target_file geotiff_folder : Path)
    (entries : List String) (fs1 : FS) : Option (Path × FS) :=
  match payload_selection dt entries with
  | none => none
  | some e0 =>
    match dt with
    | .srtm =>
      some (joinName target_file.dropLast e0,
        entries.foldl (fun a e => fsWrite a (joinName target_file.dropLast e) []) fs1)
    | .aster =>
      some (joinName geotiff_folder e0,
        entries.foldl (fun a e => fsWrite a (joinName geotiff_folder e) []) fs1)
    | .copernicus =>
      some (joinName target_file.dropLast e0,
        fsWrite fs1 (joinName target_file.dropLast e0) [])

/-- Lines 186-195: conversion stage, after the archive was deleted. With
ellipsoidal set, only the ellipsoidal conversion runs (Copernicus through
convert_copernicus, the others through gdalwarp); otherwise the plain
conversion runs only for SRTM with convert set. -/
def convert_stage (dt : DataType) (convert ellipsoidal : Bool)
    (geotiff_folder unzipped : Path) (fs3 : FS) : FS :=
  if ellipsoidal then
    let geotiff_path := geotiff_folder ++ ["ellipsoidal", unzipped.getLastD ""]
    if dt = DataType.copernicus then convert_copernicus unzipped geotiff_path fs3
    else hgt_tif_to_geotif_ellipsoidal unzipped geotiff_path fs3
  else if convert && dt = DataType.srtm then
    hgt_to_geotif unzipped
      (geotiff_folder ++ [pyStem (unzipped.getLastD "") ++ ".tiff"]) fs3
  else fs3

/-- Lines 131-195: one job's full pipeline. A download failure is caught and
only ends this job (lines 143-147); the progress counter arguments are
log-only and omitted. After a successful extraction the archive is unlinked
(line 185) before the conversion stage. -/
def process_file (net : Net) (url : String) (data_type : DataType)
    (target_file : Path) (convert unzip ellipsoidal : Bool) (fs : FS) : FS :=
  match download_file net url target_file fs with
  | Except.error _ => fs
  | Except.ok fs1 =>
    if fsExists fs1 target_file = false then fs1
    else if unzip || convert || ellipsoidal then
      let geotiff_folder := target_file.dropLast ++ ["geotiff"]
      match unpack_stage data_type target_file geotiff_folder (fsRead fs1 target_file) fs1 with
      | none => fs1
      | some (unzipped, fs2) =>
        convert_stage data_type convert ellipsoidal geotiff_folder unzipped
          (fsUnlink fs2 target_file)
    else fs1

/-! ### download orchestrator (downloader.py lines 198-246) -/

/-- Lines 217-221: the skip index, computed once from the converted
ellipsoidal output directory - each file name's portion before the first dot,
with the substring _dem_wgs84ellps deleted. -/
def skipIndex (fs : FS) (target_folder : Path) : List String :=
  (dirFiles fs (target_folder ++ ["geotiff", "ellipsoidal"])).map
    (fun nm => pyReplaceDel (beforeFirstDot nm) "_dem_wgs84ellps")

/-- The links that survive the in-loop skip test (lines 227-231) and are
therefore dispatched to the pool. -/
def dispatchedLinks (fs : FS) (target_folder : Path) (skip : Bool)
    (links : List String) : List String :=
  let keys_to_ignore := if skip then skipIndex fs target_folder else []
  links.filter
    (fun link => !(skip && keys_to_ignore.contains (beforeFirstDot (pathlibName link))))

/-- Lines 198-246: the batch loop. The link list models the Python set with
its unspecified iteration order; each dispatched job runs process_file. The
worker pool's interleaving is not modelled: jobs are folded in dispatch
order. -/
def download (net : Net) (target_folder : Path) (links : List String)
    (data_type : DataType) (convert ellipsoidal unzip skip : Bool) (fs : FS) : FS :=
  let keys_to_ignore := if skip then skipIndex fs target_folder else []
  links.foldl
    (fun acc link =>
      if skip && keys_to_ignore.contains (beforeFirstDot (pathlibName link)) then acc
      else
        process_file net link data_type (target_folder ++ [pathlibName link])
          convert unzip ellipsoidal acc)
    fs

/-! ### parse_aster_links (downloader.py lines 249-260) -/

def BASE_ASTER_URL : String := "https://e4ftl01.cr.usgs.gov/ASTT/ASTGTM.003/2000.03.01"

/-- The fetched directory listing: the response status code and the href of
each anchor of the parsed markup. -/
structure AsterPage where
  status_code : Nat
  hrefs : List String

/-- Lines 255-258: keep an href whose lowercase form ends in zip, adding its
full URL to the result set. -/
def aster_step (results : List String) (name : String) : List String :=
  if strEndsWith (strToLower name) "zip" then
    if results.contains (BASE_ASTER_URL ++ "/" ++ name) then results
    else results ++ [BASE_ASTER_URL ++ "/" ++ name]
  else results

/-- The accumulated result set of the anchor loop. -/
def asterResults (hrefs : List String) : List String :=
  hrefs.foldl aster_step []

/-- Lines 249-260: the ASTER link enumerator. The source never inspects the
response status, so the result is always a normal return; the Except codomain
records that the Python function could raise but does not. -/
def parse_aster_links (page : AsterPage) : Except DownloadException (List String) :=
  Except.ok (asterResults page.hrefs)

/-! ### Concrete mock networks for witnesses and counterexamples -/

/-- A host that redirects the unauthenticated probe. -/
def mockRedirectNet : Net :=
  { get := fun _ => ⟨["orig"], "redir", 302, "", []⟩
    getAuth := fun u => ⟨[], u, 200, "", []⟩ }

/-- A host that serves one abstract file without redirecting. -/
def mockOkNet : Net :=
  { get := fun u => ⟨[], u, 200, "", []⟩
    getAuth := fun u => ⟨[], u, 200, "", ["m"]⟩ }

/-- A host whose authenticated request fails. -/
def mockErrNet : Net :=
  { get := fun u => ⟨[], u, 200, "", []⟩
    getAuth := fun u => ⟨[], u, 503, "boom", []⟩ }

/-- A host serving a zip whose member list has no _dem entry. -/
def mockNoDemNet : Net :=
  { get := fun u => ⟨[], u, 200, "", []⟩
    getAuth := fun u => ⟨[], u, 200, "", ["x.txt"]⟩ }

/-- A host serving an SRTM-style zip containing N1.hgt. -/
def mockSrtmNet : Net :=
  { get := fun u => ⟨[], u, 200, "", []⟩
    getAuth := fun u => ⟨[], u, 200, "", ["N1.hgt"]⟩ }

/-- A host serving an ASTER-style zip containing a _dem payload and a
companion layer. -/
def mockAsterNet : Net :=
  { get := fun u => ⟨[], u, 200, "", []⟩
    getAuth := fun u => ⟨[], u, 200, "", ["A1_dem.tif", "A1_num.tif"]⟩ }

/-- A host serving a Copernicus-style tar containing C1.dt2. -/
def mockCopNet : Net :=
  { get := fun u => ⟨[], u, 200, "", []⟩
    getAuth := fun u => ⟨[], u, 200, "", ["C1.dt2"]⟩ }

/-- A host where one URL is poisoned (500) and the others serve SRTM zips. -/
def mockMixedNet : Net :=
  { get := fun u => ⟨[], u, 200, "", []⟩
    getAuth := fun u =>
      if u = "h/B.x.zip" then ⟨[], u, 200, "", ["B.hgt"]⟩
      else ⟨[], u, 500, "err", []⟩ }

/-- A host serving the two tiles of the end-to-end scenario. -/
def mockTwoTileNet : Net :=
  { get := fun u => ⟨[], u, 200, "", []⟩
    getAuth := fun u =>
      if u = "h/T1.zip" then ⟨[], u, 200, "", ["T1.hgt"]⟩
      else ⟨[], u, 200, "", ["T2.hgt"]⟩ }

/-- A host where one URL downloads fine but its zip holds no _dem payload
(an unpack-stage failure), while the other serves a good ASTER zip. -/
def mockUnpackPoisonNet : Net :=
  { get := fun u => ⟨[], u, 200, "", []⟩
    getAuth := fun u =>
      if u = "h/P.zip" then ⟨[], u, 200, "", ["readme.txt"]⟩
      else ⟨[], u, 200, "", ["B2_dem.tif"]⟩ }

/-! ### Claim C2: redirect-then-authenticate protocol -/

/-- C2. For every fetch, the authenticated streamed request targets
final_url: the final redirected URL of the probe response when its redirect
history is non-empty, and the original URL otherwise. -/
theorem C2_redirect_then_authenticate :
    ∀ (net : Net) (url : String) (target : Path) (fs : FS),
      download_file net url target fs =
        auth_fetch (net.getAuth (final_url net url)) target fs ∧
      ((net.get url).history ≠ [] → final_url net url = (net.get url).url) ∧
      ((net.get url).history = [] → final_url net url = url) := by
  intro net url target fs
  refine ⟨rfl, fun h => ?_, fun h => ?_⟩
  · simp [final_url, h]
  · simp [final_url, h]

theorem C2_redirect_then_authenticate_witness :
    (mockRedirectNet.get "orig").history ≠ [] ∧
    final_url mockRedirectNet "orig" = "redir" ∧
    final_url mockOkNet "orig" = "orig" :=
  ⟨by decide,
    (C2_redirect_then_authenticate mockRedirectNet "orig" [] []).2.1 (by decide),
    (C2_redirect_then_authenticate mockOkNet "orig" [] []).2.2 (by decide)⟩

/-! ### Claim C5: fetch error contract -/

/-- C5. The fetcher writes the authenticated response body to the target path
and returns normally when the status is 200, and raises a DownloadException
carrying the status and body exactly when the status is any value other than
200; there is no retry, the outcome is a function of the single authenticated
response. -/
theorem C5_fetch_error_contract :
    ∀ (net : Net) (url : String) (target : Path) (fs : FS),
      ((net.getAuth (final_url net url)).status_code = 200 →
        download_file net url target fs =
          Except.ok (fsWrite fs target (net.getAuth (final_url net url)).content)) ∧
      ((net.getAuth (final_url net url)).status_code ≠ 200 →
        download_file net url target fs =
          Except.error ⟨(net.getAuth (final_url net url)).status_code,
            (net.getAuth (final_url net url)).text⟩) := by
  intro net url target fs
  constructor <;> intro h <;> simp [download_file, auth_fetch, h]

/-! ### Claim C7: ASTER enumeration -/

lemma contains_iff_mem {l : List String} {a : String} :
    l.contains a = true ↔ a ∈ l := by
  induction l with
  | nil => simp
  | cons b l ih =>
    simp only [List.contains_cons, Bool.or_eq_true, beq_iff_eq, ih, List.mem_cons]

lemma mem_aster_step {u : String} {acc : List String} {n : String} :
    u ∈ aster_step acc n ↔
      u ∈ acc ∨ (strEndsWith (strToLower n) "zip" = true ∧ u = BASE_ASTER_URL ++ "/" ++ n) := by
  unfold aster_step
  by_cases h : strEndsWith (strToLower n) "zip" = true
  · rw [if_pos h]
    by_cases hc : acc.contains (BASE_ASTER_URL ++ "/" ++ n) = true
    · rw [if_pos hc]
      constructor
      · exact fun hu => Or.inl hu
      · rintro (hu | ⟨_, rfl⟩)
        · exact hu
        · exact contains_iff_mem.mp hc
    · rw [if_neg hc]
      simp [h, List.mem_append]
  · rw [if_neg h]
    simp [h]

lemma mem_asterFold (u : String) :
    ∀ (l acc : List String),
      u ∈ l.foldl aster_step acc ↔
        u ∈ acc ∨ ∃ name, name ∈ l ∧ strEndsWith (strToLower name) "zip" = true ∧
          u = BASE_ASTER_URL ++ "/" ++ name := by
  intro l
  induction l with
  | nil => intro acc; simp
  | cons n l ih =>
    intro acc
    rw [List.foldl_cons, ih, mem_aster_step]
    constructor
    · rintro ((hu | ⟨hz, hu⟩) | ⟨name, hn, hz, hu⟩)
      · exact Or.inl hu
      · exact Or.inr ⟨n, List.mem_cons_self n l, hz, hu⟩
      · exact Or.inr ⟨name, List.mem_cons_of_mem n hn, hz, hu⟩
    · rintro (hu | ⟨name, hn, hz, hu⟩)
      · exact Or.inl (Or.inl hu)
      · rcases List.mem_cons.mp hn with rfl | hn
        · exact Or.inl (Or.inr ⟨hz, hu⟩)
        · exact Or.inr ⟨name, hn, hz, hu⟩

/-- C7 counterexample. On a response with status 404 whose body parses to one
zip anchor, parse_aster_links returns that link normally instead of failing:
no error of any kind is raised on a non-200 response. -/
theorem C7_counterexample :
    parse_aster_links ⟨404, ["a.zip"]⟩ =
      Except.ok ["https://e4ftl01.cr.usgs.gov/ASTT/ASTGTM.003/2000.03.01/a.zip"] := by
  rfl

/-- C7 amended. The enumerator returns exactly the set of full URLs (the
fixed base URL joined with the href) for hrefs of the listing that end in
zip case-insensitively; the response status code is ignored entirely, so the
function never fails, in particular not on a non-200 response. -/
theorem C7_aster_enumeration_amended :
    (∀ page : AsterPage, parse_aster_links page = Except.ok (asterResults page.hrefs)) ∧
    (∀ (s1 s2 : Nat) (hrefs : List String),
      parse_aster_links ⟨s1, hrefs⟩ = parse_aster_links ⟨s2, hrefs⟩) ∧
    (∀ (hrefs : List String) (u : String),
      u ∈ asterResults hrefs ↔
        ∃ name, name ∈ hrefs ∧ strEndsWith (strToLower name) "zip" = true ∧
          u = BASE_ASTER_URL ++ "/" ++ name) := by
  refine ⟨fun _ => rfl, fun _ _ _ => rfl, fun hrefs u => ?_⟩
  rw [asterResults, mem_asterFold]
  simp

/-! ### Claim C1: resume-mode idempotence -/

lemma foldl_filter_not {α β : Type} (p : α → Bool) (f : β → α → β) :
    ∀ (l : List α) (b : β),
      (l.filter (fun a => !(p a))).foldl f b =
        l.foldl (fun b a => if p a then b else f b a) b := by
  intro l
  induction l with
  | nil => intro b; rfl
  | cons a l ih =>
    intro b
    by_cases h : p a = true <;> simp [List.filter_cons, h, ih]

/-- C1 counterexample. An SRTM batch run with ellipsoidal conversion: the
first run fully succeeds and leaves the converted ellipsoidal artifact on
disk, yet a second run with skip-if-exist enabled dispatches the same link
again (its skip-key N1 is not recovered from the output name
N1_wgs84ellps.hgt, because the skip index only strips _dem_wgs84ellps), so
the second run performs a redundant download. -/
theorem C1_counterexample :
    fsExists (download mockSrtmNet [] ["h/N1.x.zip"] DataType.srtm false true false true [])
        ["geotiff", "ellipsoidal", "N1_wgs84ellps.hgt"] = true ∧
    dispatchedLinks (download mockSrtmNet [] ["h/N1.x.zip"] DataType.srtm false true false true [])
        [] true ["h/N1.x.zip"] = ["h/N1.x.zip"] := by
  decide

/-- C1 amended. When skip-if-exist is enabled the SkipIndex is computed once
before dispatch, taking each converted-ellipsoidal file name's portion before
the first dot and deleting the substring _dem_wgs84ellps; the batch loop
processes exactly the links whose skip-key (name before the first dot) is not
in that SkipIndex. A rerun therefore performs zero downloads precisely for
links whose surviving ellipsoidal-directory file names reduce to the link's
skip-key under that rule: a fully successful ASTER batch (outputs
X_dem_wgs84ellps.tif) and a fully successful COPERNICUS batch (whose
surviving file is the trimmed X.tif that convert_copernicus leaves after
unlinking the warped output) both dispatch nothing on rerun, while an SRTM
batch (outputs X_wgs84ellps.hgt) is dispatched again - see the
counterexample. -/
theorem C1_resume_skip_amended :
    (∀ (net : Net) (t : Path) (links : List String) (dt : DataType)
        (c e u sk : Bool) (fs : FS),
      download net t links dt c e u sk fs =
        (dispatchedLinks fs t sk links).foldl
          (fun acc link =>
            process_file net link dt (t ++ [pathlibName link]) c u e acc) fs) ∧
    (∀ (fs : FS) (t : Path) (links : List String) (link : String),
      link ∈ dispatchedLinks fs t true links ↔
        link ∈ links ∧ beforeFirstDot (pathlibName link) ∉ skipIndex fs t) ∧
    (dispatchedLinks (download mockAsterNet [] ["h/A1.zip"] DataType.aster false true false true [])
        [] true ["h/A1.zip"] = []) ∧
    (dispatchedLinks (download mockCopNet [] ["h/C1.tar"] DataType.copernicus false true false true [])
        [] true ["h/C1.tar"] = []) := by
  refine ⟨?_, ?_, by decide, by decide⟩
  · intro net t links dt c e u sk fs
    simp only [download, dispatchedLinks]
    exact (foldl_filter_not _ _ links fs).symm
  · intro fs t links link
    have hset : dispatchedLinks fs t true links =
        links.filter
          (fun l => !((skipIndex fs t).contains (beforeFirstDot (pathlibName l)))) := by
      simp [dispatchedLinks]
    rw [hset, List.mem_filter]
    constructor
    · rintro ⟨hm, hc⟩
      refine ⟨hm, fun hmem => ?_⟩
      rw [contains_iff_mem.mpr hmem] at hc
      cases hc
    · rintro ⟨hm, hni⟩
      refine ⟨hm, ?_⟩
      cases hx : (skipIndex fs t).contains (beforeFirstDot (pathlibName link)) with
      | false => rfl
      | true => exact absurd (contains_iff_mem.mp hx) hni

/-! ### Claim C3: archive-selection policy per data-source kind -/

lemma head?_filter_eq_find? {α : Type} (p : α → Bool) :
    ∀ l : List α, (l.filter p).head? = l.find? p := by
  intro l
  induction l with
  | nil => rfl
  | cons a l ih =>
    by_cases h : p a = true <;> simp [List.filter_cons, List.find?_cons, h, ih]

lemma download_file_ok {net : Net} {url : String} {target : Path} {fs : FS}
    (h : (net.getAuth (final_url net url)).status_code = 200) :
    download_file net url target fs =
      Except.ok (fsWrite fs target (net.getAuth (final_url net url)).content) := by
  simp [download_file, auth_fetch, h]

lemma download_file_err {net : Net} {url : String} {target : Path} {fs : FS}
    (h : (net.getAuth (final_url net url)).status_code ≠ 200) :
    download_file net url target fs =
      Except.error ⟨(net.getAuth (final_url net url)).status_code,
        (net.getAuth (final_url net url)).text⟩ := by
  simp [download_file, auth_fetch, h]

/-- C3. Selection policy: for SRTM the payload is unconditionally the first
zip entry regardless of name; for ASTER it is the first entry containing the
substring _dem, with none exactly when no entry contains it; for COPERNICUS
it is the first entry with pathlib suffix .dt2, with none exactly when none
has it; and whenever the selection is none the job stops after the download,
leaving only the downloaded archive. -/
theorem C3_archive_selection :
    (∀ entries : List String, payload_selection DataType.srtm entries = entries.head?) ∧
    (payload_selection DataType.srtm ["A.hdr", "A_dem.tif", "A_num.tif"] = some "A.hdr") ∧
    (∀ entries : List String,
      payload_selection DataType.aster entries =
        entries.find? (fun f => strContains f "_dem")) ∧
    (∀ entries : List String,
      payload_selection DataType.aster entries = none ↔
        ∀ f ∈ entries, strContains f "_dem" = false) ∧
    (∀ entries : List String,
      payload_selection DataType.copernicus entries =
        entries.find? (fun f => decide (pySuffix (pathlibName f) = ".dt2"))) ∧
    (∀ entries : List String,
      payload_selection DataType.copernicus entries = none ↔
        ∀ f ∈ entries, pySuffix (pathlibName f) ≠ ".dt2") ∧
    (∀ (net : Net) (url : String) (dt : DataType) (target : Path) (c u e : Bool) (fs : FS),
      (net.getAuth (final_url net url)).status_code = 200 →
      (u || c || e) = true →
      payload_selection dt (net.getAuth (final_url net url)).content = none →
      process_file net url dt target c u e fs =
        fsWrite fs target (net.getAuth (final_url net url)).content) := by
  refine ⟨fun _ => rfl, by decide, ?_, ?_, ?_, ?_, ?_⟩
  · intro entries
    simp [payload_selection, aster_dem_files, head?_filter_eq_find?]
  · intro entries
    simp [payload_selection, aster_dem_files, head?_filter_eq_find?, List.find?_eq_none]
  · intro entries
    simp [payload_selection, copernicus_dt2_files, head?_filter_eq_find?]
  · intro entries
    simp [payload_selection, copernicus_dt2_files, head?_filter_eq_find?, List.find?_eq_none]
  · intro net url dt target c u e fs h200 hstage hsel
    simp [process_file, download_file_ok h200, hstage, fsExists_fsWrite_self,
      fsRead_fsWrite_self, unpack_stage, hsel]

theorem C3_archive_selection_witness :
    process_file mockNoDemNet "h/a.zip" DataType.aster ["a.zip"] false true false [] =
      fsWrite [] ["a.zip"] ["x.txt"] :=
  C3_archive_selection.2.2.2.2.2.2 mockNoDemNet "h/a.zip" DataType.aster ["a.zip"]
    false true false [] (by decide) (by decide) (by decide)

/-! ### Claim C10: mode-flag precedence -/

lemma getLast?_append_of_ne_nil' {p l : List String} (h : l ≠ []) :
    (p ++ l).getLast? = l.getLast? := by
  induction p with
  | nil => rfl
  | cons a p ih =>
    cases hp : p ++ l with
    | nil => exact absurd (List.append_eq_nil.mp hp).2 h
    | cons b q =>
      rw [List.cons_append, hp, List.getLast?_cons_cons, ← hp, ih]

lemma getLastD_append_of_ne_nil {p l : List String} (h : l ≠ []) (d : String) :
    (p ++ l).getLastD d = l.getLastD d := by
  rw [List.getLastD_eq_getLast?, List.getLastD_eq_getLast?,
    getLast?_append_of_ne_nil' h]

/-- C10. When ellipsoidal is enabled the convert flag is irrelevant: only the
ellipsoidal conversion runs. Without ellipsoidal, the convert flag for a
non-SRTM kind behaves exactly like unpack-only; for SRTM it produces the
plain GeoTIFF artifact (payload stem + .tiff) under the geotiff folder. -/
theorem C10_mode_flag_precedence :
    (∀ (net : Net) (url : String) (dt : DataType) (target : Path) (u : Bool) (fs : FS),
      process_file net url dt target true u true fs =
        process_file net url dt target false u true fs) ∧
    (∀ (net : Net) (url : String) (dt : DataType) (target : Path) (u : Bool) (fs : FS),
      dt ≠ DataType.srtm →
      process_file net url dt target true u false fs =
        process_file net url dt target false true false fs) ∧
    (∀ (net : Net) (url : String) (target : Path) (u : Bool) (fs : FS)
        (e : String) (es : List String),
      (net.getAuth (final_url net url)).status_code = 200 →
      (net.getAuth (final_url net url)).content = e :: es →
      slashComps e ≠ [] →
      fsExists (process_file net url DataType.srtm target true u false fs)
        (target.dropLast ++ ["geotiff", pyStem ((slashComps e).getLastD "") ++ ".tiff"]) =
        true) := by
  refine ⟨?_, ?_, ?_⟩
  · intro net url dt target u fs
    unfold process_file
    cases hd : download_file net url target fs with
    | error err => rfl
    | ok fs1 =>
      by_cases hex : fsExists fs1 target = false
      · simp [hex]
      · simp only [if_neg hex, Bool.or_true]
        cases hu : unpack_stage dt target (target.dropLast ++ ["geotiff"])
            (fsRead fs1 target) fs1 with
        | none => simp
        | some pr =>
          obtain ⟨unzipped, fs2⟩ := pr
          simp [convert_stage]
  · intro net url dt target u fs hdt
    unfold process_file
    cases hd : download_file net url target fs with
    | error err => rfl
    | ok fs1 =>
      by_cases hex : fsExists fs1 target = false
      · simp [hex]
      · simp only [if_neg hex, Bool.or_true, Bool.or_false, Bool.true_or]
        cases hu : unpack_stage dt target (target.dropLast ++ ["geotiff"])
            (fsRead fs1 target) fs1 with
        | none => simp
        | some pr =>
          obtain ⟨unzipped, fs2⟩ := pr
          simp [convert_stage, hdt]
  · intro net url target u fs e es h200 hcon hne
    have hd := @download_file_ok net url target fs h200
    rw [hcon] at hd
    simp only [process_file, hd, fsExists_fsWrite_self, fsRead_fsWrite_self, hcon,
      Bool.true_or, Bool.or_true, Bool.or_false, if_true, unpack_stage,
      payload_selection, srtm_payload, List.head?_cons, convert_stage,
      Bool.true_and, if_neg, reduceIte]
    simp only [joinName, getLastD_append_of_ne_nil hne]
    simp [hgt_to_geotif, fsExists_fsWrite_self, List.append_assoc]

theorem C10_mode_flag_precedence_witness :
    process_file mockAsterNet "h/A1.zip" DataType.aster ["A1.zip"] true false false [] =
      process_file mockAsterNet "h/A1.zip" DataType.aster ["A1.zip"] false true false [] ∧
    fsExists (process_file mockSrtmNet "h/N1.x.zip" DataType.srtm ["N1.x.zip"] true false false [])
      ["geotiff", "N1.tiff"] = true :=
  ⟨C10_mode_flag_precedence.2.1 mockAsterNet "h/A1.zip" DataType.aster ["A1.zip"]
      false [] (by decide),
   C10_mode_flag_precedence.2.2 mockSrtmNet "h/N1.x.zip" ["N1.x.zip"] false []
      "N1.hgt" [] (by decide) (by decide) (by decide)⟩

/-! ### Claim C4: staged-file lifecycle -/

lemma path_ne_dropLast_append {t : Path} {l : List String} (hl : 2 ≤ l.length) :
    t ≠ t.dropLast ++ l := by
  intro h
  have hlen := congrArg List.length h
  rw [List.length_append, List.length_dropLast] at hlen
  omega

lemma unpack_stage_none_iff {dt : DataType} {t g : Path} {entries : List String} {fs : FS} :
    unpack_stage dt t g entries fs = none ↔ payload_selection dt entries = none := by
  cases hs : payload_selection dt entries with
  | none => simp [unpack_stage, hs]
  | some e0 => cases dt <;> simp [unpack_stage, hs]

lemma convert_stage_absent {dt : DataType} {c e : Bool} {t up : Path} {fs : FS}
    (h : fsExists fs t = false) :
    fsExists (convert_stage dt c e (t.dropLast ++ ["geotiff"]) up fs) t = false := by
  have hgp : ∀ nm : String,
      ((t.dropLast ++ ["geotiff"]) ++ ["ellipsoidal", nm]).dropLast =
        t.dropLast ++ ["geotiff", "ellipsoidal"] := by
    intro nm
    have hsplit : (t.dropLast ++ ["geotiff"]) ++ ["ellipsoidal", nm] =
        (t.dropLast ++ ["geotiff", "ellipsoidal"]) ++ [nm] := by simp
    rw [hsplit, List.dropLast_concat]
  have hne3 : ∀ x : String, t ≠ (t.dropLast ++ ["geotiff", "ellipsoidal"]) ++ [x] := by
    intro x
    have hsplit : (t.dropLast ++ ["geotiff", "ellipsoidal"]) ++ [x] =
        t.dropLast ++ ["geotiff", "ellipsoidal", x] := by simp
    rw [hsplit]
    exact path_ne_dropLast_append (by simp)
  have hne2 : ∀ x : String, t ≠ (t.dropLast ++ ["geotiff"]) ++ [x] := by
    intro x
    have hsplit : (t.dropLast ++ ["geotiff"]) ++ [x] = t.dropLast ++ ["geotiff", x] := by
      simp
    rw [hsplit]
    exact path_ne_dropLast_append (by simp)
  unfold convert_stage
  split
  · split
    · unfold convert_copernicus
      dsimp only
      apply fsExists_fsUnlink_of_false
      rw [hgp, fsExists_fsWrite_ne (hne3 _), fsExists_fsWrite_ne (hne3 _)]
      exact h
    · unfold hgt_tif_to_geotif_ellipsoidal
      dsimp only
      rw [hgp, fsExists_fsWrite_ne (hne3 _)]
      exact h
  · split
    · unfold hgt_to_geotif
      rw [fsExists_fsWrite_ne (hne2 _)]
      exact h
    · exact h

/-- C4 counterexample. An SRTM ellipsoidal job that reaches its terminal
artifact (geotiff/ellipsoidal/N1_wgs84ellps.hgt exists when the job
finishes), yet the unpacked payload N1.hgt still exists on disk - the claim
that the unpacked payload no longer exists once the job finishes is false. -/
theorem C4_counterexample :
    fsExists (process_file mockSrtmNet "h/N1.x.zip" DataType.srtm ["N1.x.zip"] false false true [])
      ["geotiff", "ellipsoidal", "N1_wgs84ellps.hgt"] = true ∧
    fsExists (process_file mockSrtmNet "h/N1.x.zip" DataType.srtm ["N1.x.zip"] false false true [])
      ["N1.hgt"] = true := by
  decide

/-- C4 amended. After every successful extraction the downloaded archive is
deleted, for all kinds and mode combinations (whenever the unpack stage ran
and found its payload, the archive path no longer exists when the job
finishes); but the unpacked payload is never deleted and persists (see the
SRTM instance), and for COPERNICUS the terminal _wgs84ellps.tif output is
itself unlinked at the end of conversion, leaving only the intermediate
trimmed .tif in the ellipsoidal directory. -/
theorem C4_staged_lifecycle_amended :
    (∀ (net : Net) (url : String) (dt : DataType) (target : Path) (c u e : Bool) (fs : FS),
      (net.getAuth (final_url net url)).status_code = 200 →
      (u || c || e) = true →
      payload_selection dt (net.getAuth (final_url net url)).content ≠ none →
      fsExists (process_file net url dt target c u e fs) target = false) ∧
    fsExists (process_file mockSrtmNet "h/N1.x.zip" DataType.srtm ["N1.x.zip"] false false true [])
      ["N1.hgt"] = true ∧
    fsExists (process_file mockCopNet "h/C1.tar" DataType.copernicus ["C1.tar"] false false true [])
      ["geotiff", "ellipsoidal", "C1_wgs84ellps.tif"] = false ∧
    fsExists (process_file mockCopNet "h/C1.tar" DataType.copernicus ["C1.tar"] false false true [])
      ["geotiff", "ellipsoidal", "C1.tif"] = true := by
  refine ⟨?_, by decide, by decide, by decide⟩
  intro net url dt target c u e fs h200 hstage hsel
  have hd := @download_file_ok net url target fs h200
  simp only [process_file, hd, fsExists_fsWrite_self, fsRead_fsWrite_self, hstage,
    Bool.true_eq_false, if_false, if_true, reduceIte]
  cases hu : unpack_stage dt target (target.dropLast ++ ["geotiff"])
      ((net.getAuth (final_url net url)).content) (fsWrite fs target _) with
  | none => exact absurd (unpack_stage_none_iff.mp hu) hsel
  | some pr =>
    obtain ⟨up, fs2⟩ := pr
    exact convert_stage_absent fsExists_fsUnlink_self

theorem C4_staged_lifecycle_amended_witness :
    fsExists (process_file mockAsterNet "h/A1.zip" DataType.aster ["A1.zip"] false true false [])
      ["A1.zip"] = false :=
  C4_staged_lifecycle_amended.1 mockAsterNet "h/A1.zip" DataType.aster ["A1.zip"]
    false true false [] (by decide) (by decide) (by decide)

/-! ### Claim C8: ellipsoidal output naming -/

/-- C8 counterexample. In the end-to-end scenario the payload T1.hgt does not
yield geotiff/ellipsoidal/T1_wgs84ellps.tiff: the artifact actually written
is geotiff/ellipsoidal/T1_wgs84ellps.hgt - the payload's own extension is
kept, it is not replaced by .tiff. -/
theorem C8_counterexample :
    fsExists (download mockTwoTileNet [] ["h/T1.zip", "h/T2.zip"] DataType.srtm
      false true false false []) ["geotiff", "ellipsoidal", "T1_wgs84ellps.tiff"] = false ∧
    fsExists (download mockTwoTileNet [] ["h/T1.zip", "h/T2.zip"] DataType.srtm
      false true false false []) ["geotiff", "ellipsoidal", "T1_wgs84ellps.hgt"] = true := by
  decide

lemma fsExists_fsUnlink_ne {fs : FS} {p q : Path} (h : q ≠ p) :
    fsExists (fsUnlink fs p) q = fsExists fs q := by
  cases hq : fsExists fs q with
  | true =>
    rw [fsExists_iff] at hq ⊢
    obtain ⟨d, hd⟩ := hq
    exact ⟨d, mem_fsUnlink.mpr ⟨hd, h⟩⟩
  | false => exact fsExists_fsUnlink_of_false hq

lemma gp_dropLast (t : Path) (nm : String) :
    ((t.dropLast ++ ["geotiff"]) ++ ["ellipsoidal", nm]).dropLast =
      t.dropLast ++ ["geotiff", "ellipsoidal"] := by
  have hsplit : (t.dropLast ++ ["geotiff"]) ++ ["ellipsoidal", nm] =
      (t.dropLast ++ ["geotiff", "ellipsoidal"]) ++ [nm] := by simp
  rw [hsplit, List.dropLast_concat]

lemma gp_getLastD (t : Path) (nm : String) :
    ((t.dropLast ++ ["geotiff"]) ++ ["ellipsoidal", nm]).getLastD "" = nm := by
  rw [List.append_assoc]
  exact getLastD_append_of_ne_nil (by simp) ""

lemma tif_warp_ne (s : String) : s ++ ".tif" ≠ s ++ "_wgs84ellps.tif" := by
  intro h
  have hl := congrArg String.length h
  rw [String.length_append, String.length_append] at hl
  have h1 : (".tif" : String).length = 4 := by decide
  have h2 : ("_wgs84ellps.tif" : String).length = 15 := by decide
  rw [h1, h2] at hl
  omega

lemma ell3_ne {td : Path} {x y : String} (h : x ≠ y) :
    td ++ ["geotiff", "ellipsoidal", x] ≠ td ++ ["geotiff", "ellipsoidal", y] := by
  intro he
  apply h
  have h2 := List.append_cancel_left he
  simpa using h2

/-- Any ellipsoidal job of a non-Copernicus kind whose archive holds a
payload writes its artifact at geotiff/ellipsoidal/(payload stem +
_wgs84ellps + payload extension), whatever the incoming filesystem. -/
lemma ellipsoidal_artifact_of_selection {net : Net} {url : String} {dt : DataType}
    {target : Path} {c u : Bool} {fs : FS} {d0 : String}
    (h200 : (net.getAuth (final_url net url)).status_code = 200)
    (hdt : dt ≠ DataType.copernicus)
    (hsel : payload_selection dt (net.getAuth (final_url net url)).content = some d0)
    (hne : slashComps d0 ≠ []) :
    fsExists (process_file net url dt target c u true fs)
      (target.dropLast ++ ["geotiff", "ellipsoidal",
        pyStem ((slashComps d0).getLastD "") ++ "_wgs84ellps" ++
          pySuffix ((slashComps d0).getLastD "")]) = true := by
  have hd := @download_file_ok net url target fs h200
  cases dt with
  | copernicus => exact absurd rfl hdt
  | srtm =>
    simp only [process_file, hd, fsExists_fsWrite_self, fsRead_fsWrite_self,
      Bool.true_eq_false, Bool.or_true, if_false, if_true, reduceIte,
      unpack_stage, hsel, convert_stage, hgt_tif_to_geotif_ellipsoidal, joinName]
    rw [gp_dropLast, gp_getLastD, getLastD_append_of_ne_nil hne]
    simp [fsExists_fsWrite_self, List.append_assoc]
  | aster =>
    simp only [process_file, hd, fsExists_fsWrite_self, fsRead_fsWrite_self,
      Bool.true_eq_false, Bool.or_true, if_false, if_true, reduceIte,
      unpack_stage, hsel, convert_stage, hgt_tif_to_geotif_ellipsoidal, joinName]
    rw [gp_dropLast, gp_getLastD, getLastD_append_of_ne_nil hne]
    simp [fsExists_fsWrite_self, List.append_assoc]

/-- An ellipsoidal Copernicus job whose tar holds a dt2 payload ends with the
warped (payload stem + _wgs84ellps.tif) output unlinked - the name ignores
the payload's own extension - while the trimmed (payload stem + .tif)
intermediate survives in the ellipsoidal directory. -/
lemma copernicus_warp_unlinked {net : Net} {url : String} {target : Path}
    {c u : Bool} {fs : FS} {d0 : String}
    (h200 : (net.getAuth (final_url net url)).status_code = 200)
    (hsel : payload_selection DataType.copernicus
      (net.getAuth (final_url net url)).content = some d0)
    (hne : slashComps d0 ≠ []) :
    fsExists (process_file net url DataType.copernicus target c u true fs)
      (target.dropLast ++ ["geotiff", "ellipsoidal",
        pyStem ((slashComps d0).getLastD "") ++ "_wgs84ellps.tif"]) = false ∧
    fsExists (process_file net url DataType.copernicus target c u true fs)
      (target.dropLast ++ ["geotiff", "ellipsoidal",
        pyStem ((slashComps d0).getLastD "") ++ ".tif"]) = true := by
  have hd := @download_file_ok net url target fs h200
  constructor
  · simp only [process_file, hd, fsExists_fsWrite_self, fsRead_fsWrite_self,
      Bool.true_eq_false, Bool.or_true, if_false, if_true, reduceIte,
      unpack_stage, hsel, convert_stage, convert_copernicus, joinName]
    rw [gp_dropLast, gp_getLastD, getLastD_append_of_ne_nil hne]
    simp only [List.append_assoc, List.cons_append, List.nil_append]
    exact fsExists_fsUnlink_self
  · simp only [process_file, hd, fsExists_fsWrite_self, fsRead_fsWrite_self,
      Bool.true_eq_false, Bool.or_true, if_false, if_true, reduceIte,
      unpack_stage, hsel, convert_stage, convert_copernicus, joinName]
    rw [gp_dropLast, gp_getLastD, getLastD_append_of_ne_nil hne]
    simp only [List.append_assoc, List.cons_append, List.nil_append]
    rw [fsExists_fsUnlink_ne (ell3_ne (tif_warp_ne _)),
      fsExists_fsWrite_ne (ell3_ne (tif_warp_ne _))]
    exact fsExists_fsWrite_self

/-- C8 amended. With ellipsoidal conversion enabled the artifact is written
under target/geotiff/ellipsoidal/. For SRTM and ASTER its name is the
payload's stem extended with the fixed suffix _wgs84ellps followed by the
payload's own extension: the end-to-end payloads T1.hgt and T2.hgt yield
geotiff/ellipsoidal/T1_wgs84ellps.hgt and geotiff/ellipsoidal/T2_wgs84ellps.hgt
(not .tiff), and both raw archives are deleted afterward. For COPERNICUS the
warped output is named payload stem + _wgs84ellps.tif regardless of the
payload's .dt2 extension and is immediately unlinked, leaving the trimmed
payload stem + .tif as the surviving file in the ellipsoidal directory. -/
theorem C8_ellipsoidal_naming_amended :
    (∀ (net : Net) (url : String) (dt : DataType) (target : Path) (c u : Bool)
        (fs : FS) (d0 : String),
      (net.getAuth (final_url net url)).status_code = 200 →
      dt ≠ DataType.copernicus →
      payload_selection dt (net.getAuth (final_url net url)).content = some d0 →
      slashComps d0 ≠ [] →
      fsExists (process_file net url dt target c u true fs)
        (target.dropLast ++ ["geotiff", "ellipsoidal",
          pyStem ((slashComps d0).getLastD "") ++ "_wgs84ellps" ++
            pySuffix ((slashComps d0).getLastD "")]) = true) ∧
    (∀ (net : Net) (url : String) (target : Path) (c u : Bool) (fs : FS) (d0 : String),
      (net.getAuth (final_url net url)).status_code = 200 →
      payload_selection DataType.copernicus
        (net.getAuth (final_url net url)).content = some d0 →
      slashComps d0 ≠ [] →
      fsExists (process_file net url DataType.copernicus target c u true fs)
        (target.dropLast ++ ["geotiff", "ellipsoidal",
          pyStem ((slashComps d0).getLastD "") ++ "_wgs84ellps.tif"]) = false ∧
      fsExists (process_file net url DataType.copernicus target c u true fs)
        (target.dropLast ++ ["geotiff", "ellipsoidal",
          pyStem ((slashComps d0).getLastD "") ++ ".tif"]) = true) ∧
    fsExists (download mockTwoTileNet [] ["h/T1.zip", "h/T2.zip"] DataType.srtm
      false true false false []) ["geotiff", "ellipsoidal", "T1_wgs84ellps.hgt"] = true ∧
    fsExists (download mockTwoTileNet [] ["h/T1.zip", "h/T2.zip"] DataType.srtm
      false true false false []) ["geotiff", "ellipsoidal", "T2_wgs84ellps.hgt"] = true ∧
    fsExists (download mockTwoTileNet [] ["h/T1.zip", "h/T2.zip"] DataType.srtm
      false true false false []) ["T1.zip"] = false ∧
    fsExists (download mockTwoTileNet [] ["h/T1.zip", "h/T2.zip"] DataType.srtm
      false true false false []) ["T2.zip"] = false := by
  refine ⟨?_, ?_, by decide, by decide, by decide, by decide⟩
  · intro net url dt target c u fs d0 h200 hdt hsel hne
    exact ellipsoidal_artifact_of_selection h200 hdt hsel hne
  · intro net url target c u fs d0 h200 hsel hne
    exact copernicus_warp_unlinked h200 hsel hne

theorem C8_ellipsoidal_naming_amended_witness :
    fsExists (process_file mockSrtmNet "h/N1.x.zip" DataType.srtm ["N1.x.zip"] false false true [])
      ["geotiff", "ellipsoidal", "N1_wgs84ellps.hgt"] = true ∧
    fsExists (process_file mockCopNet "h/C1.tar" DataType.copernicus ["C1.tar"] false false true [])
      ["geotiff", "ellipsoidal", "C1_wgs84ellps.tif"] = false :=
  ⟨C8_ellipsoidal_naming_amended.1 mockSrtmNet "h/N1.x.zip" DataType.srtm ["N1.x.zip"]
      false false [] "N1.hgt" (by decide) (by decide) (by decide) (by decide),
   (C8_ellipsoidal_naming_amended.2.1 mockCopNet "h/C1.tar" ["C1.tar"] false false []
      "C1.dt2" (by decide) (by decide) (by decide)).1⟩

/-! ### Claim C6: per-job failure isolation -/

/-- C6. Failure isolation at each representable stage. A job whose fetch
fails leaves the filesystem exactly as it was, and removing such a poisoned
link from a batch does not change the batch's outcome at all. A job whose
unpack stage fails (payload not found) ends right after its download: the
filesystem gains only that job's own archive and every other path is
untouched. Completion of a healthy job is independent of the incoming
filesystem - whatever other failed jobs left behind, an ASTER job with a
_dem payload still produces its ellipsoidal artifact. Concretely, batches
with a fetch-poisoned and with an unpack-poisoned link still produce the
other link's artifact. -/
theorem C6_failure_isolation :
    (∀ (net : Net) (url : String) (dt : DataType) (target : Path) (c u e : Bool) (fs : FS),
      (net.getAuth (final_url net url)).status_code ≠ 200 →
      process_file net url dt target c u e fs = fs) ∧
    (∀ (net : Net) (url : String) (dt : DataType) (target : Path) (c u e : Bool)
        (fs : FS) (q : Path),
      (net.getAuth (final_url net url)).status_code = 200 →
      (u || c || e) = true →
      payload_selection dt (net.getAuth (final_url net url)).content = none →
      process_file net url dt target c u e fs =
        fsWrite fs target (net.getAuth (final_url net url)).content ∧
      (q ≠ target →
        fsExists (process_file net url dt target c u e fs) q = fsExists fs q)) ∧
    (∀ (net : Net) (t : Path) (dt : DataType) (c e u sk : Bool) (fs : FS)
        (pre suf : List String) (bad : String),
      (net.getAuth (final_url net bad)).status_code ≠ 200 →
      download net t (pre ++ bad :: suf) dt c e u sk fs =
        download net t (pre ++ suf) dt c e u sk fs) ∧
    (∀ (net : Net) (url : String) (target : Path) (c u : Bool) (fs : FS) (d0 : String),
      (net.getAuth (final_url net url)).status_code = 200 →
      payload_selection DataType.aster
        (net.getAuth (final_url net url)).content = some d0 →
      slashComps d0 ≠ [] →
      fsExists (process_file net url DataType.aster target c u true fs)
        (target.dropLast ++ ["geotiff", "ellipsoidal",
          pyStem ((slashComps d0).getLastD "") ++ "_wgs84ellps" ++
            pySuffix ((slashComps d0).getLastD "")]) = true) ∧
    fsExists (download mockMixedNet [] ["h/A.x.zip", "h/B.x.zip"] DataType.srtm
      false true false false []) ["geotiff", "ellipsoidal", "B_wgs84ellps.hgt"] = true ∧
    fsExists (download mockUnpackPoisonNet [] ["h/P.zip", "h/B2.zip"] DataType.aster
      false true false false []) ["geotiff", "ellipsoidal", "B2_dem_wgs84ellps.tif"] = true ∧
    fsExists (download mockUnpackPoisonNet [] ["h/P.zip", "h/B2.zip"] DataType.aster
      false true false false []) ["P.zip"] = true := by
  have hpf : ∀ (net : Net) (url : String) (dt : DataType) (target : Path)
      (c u e : Bool) (fs : FS),
      (net.getAuth (final_url net url)).status_code ≠ 200 →
      process_file net url dt target c u e fs = fs := by
    intro net url dt target c u e fs h
    simp [process_file, download_file_err h]
  refine ⟨hpf, ?_, ?_, ?_, by decide, by decide, by decide⟩
  · intro net url dt target c u e fs q h200 hstage hsel
    have hmain : process_file net url dt target c u e fs =
        fsWrite fs target (net.getAuth (final_url net url)).content := by
      simp [process_file, download_file_ok h200, hstage, fsExists_fsWrite_self,
        fsRead_fsWrite_self, unpack_stage, hsel]
    refine ⟨hmain, fun hq => ?_⟩
    rw [hmain, fsExists_fsWrite_ne hq]
  · intro net t dt c e u sk fs pre suf bad hbad
    simp only [download]
    rw [List.foldl_append, List.foldl_append, List.foldl_cons]
    congr 1
    by_cases hskip : (sk && (if sk then skipIndex fs t else []).contains
        (beforeFirstDot (pathlibName bad))) = true
    · rw [if_pos hskip]
    · rw [if_neg hskip]
      exact hpf net bad dt (t ++ [pathlibName bad]) c u e _ hbad
  · intro net url target c u fs d0 h200 hsel hne
    exact ellipsoidal_artifact_of_selection h200 (by decide) hsel hne

theorem C6_failure_isolation_witness :
    process_file mockErrNet "h/A.x.zip" DataType.srtm ["A.x.zip"] false false true [] = [] ∧
    process_file mockUnpackPoisonNet "h/P.zip" DataType.aster ["P.zip"] false true false [] =
      fsWrite [] ["P.zip"] ["readme.txt"] ∧
    download mockMixedNet [] ["h/A.x.zip", "h/B.x.zip"] DataType.srtm false true false false [] =
      download mockMixedNet [] ["h/B.x.zip"] DataType.srtm false true false false [] ∧
    fsExists (process_file mockAsterNet "h/A1.zip" DataType.aster ["A1.zip"] false false true [])
      ["geotiff", "ellipsoidal", "A1_dem_wgs84ellps.tif"] = true :=
  ⟨C6_failure_isolation.1 mockErrNet "h/A.x.zip" DataType.srtm ["A.x.zip"]
      false false true [] (by decide),
   (C6_failure_isolation.2.1 mockUnpackPoisonNet "h/P.zip" DataType.aster ["P.zip"]
      false true false [] ["q"] (by decide) (by decide) (by decide)).1,
   C6_failure_isolation.2.2.1 mockMixedNet [] DataType.srtm false true false false []
      [] ["h/B.x.zip"] "h/A.x.zip" (by decide),
   C6_failure_isolation.2.2.2.1 mockAsterNet "h/A1.zip" ["A1.zip"] false false []
      "A1_dem.tif" (by decide) (by decide) (by decide)⟩

theorem C5_fetch_error_contract_witness :
    download_file mockOkNet "u" ["f"] [] = Except.ok [(["f"], ["m"])] ∧
    download_file mockErrNet "u" ["f"] [] = Except.error ⟨503, "boom"⟩ :=
  ⟨(C5_fetch_error_contract mockOkNet "u" ["f"] []).1 (by decide),
   (C5_fetch_error_contract mockErrNet "u" ["f"] []).2 (by decide)⟩

end Srtm
